import Mathlib

/-!
Verification of the news-to-YouTube automation pipeline.

The Python sources (news_collector.py, ai_script_generator.py,
tts_generator.py, youtube_uploader.py, main_workflow.py) are shallowly
embedded below.  Python strings are modelled as lists of characters
(`Str`), Python dicts holding article / result records as structures,
floating-point relevance scores as exact rationals (every score the code
produces is an integer plus the constant 0.5, which is exactly
representable), and fallible pipeline stages as `Except`-valued
functions.  HTTP backends are modelled by an abstract outcome type
carrying the status code and the extracted response text.
-/

namespace NewsAuto

/-- Characters of a Python string. -/
abbrev Str := List Char

/-- Python str.lower, applied character-wise (ASCII case mapping; the
letters occurring in the repository's keywords and titles are ASCII or
Korean, on which Python lower agrees with this). -/
def lowerStr (s : Str) : Str := s.map Char.toLower

/-- The whitespace characters recognised by Python str.strip. -/
def isPySpace (c : Char) : Bool :=
  c = ' ' || c = '\t' || c = '\n' || c = '\r' || c = '\x0b' || c = '\x0c'

/-- Remove trailing Python whitespace. -/
def dropTrailing (s : Str) : Str := (s.reverse.dropWhile isPySpace).reverse

/-- Python str.strip: remove leading and trailing whitespace. -/
def strip (s : Str) : Str := (dropTrailing s).dropWhile isPySpace

/-- Python str.split on a single newline character. -/
def splitNl : Str → List Str
  | [] => [[]]
  | '\n' :: rest => [] :: splitNl rest
  | c :: rest =>
    match splitNl rest with
    | s :: ss => (c :: s) :: ss
    | [] => [[c]]

/-- Python str.split on the two-character separator ". ", scanning left
to right over non-overlapping occurrences (tts_generator.py line 211). -/
def splitDotSpace : Str → List Str
  | [] => [[]]
  | '.' :: ' ' :: rest => [] :: splitDotSpace rest
  | c :: rest =>
    match splitDotSpace rest with
    | s :: ss => (c :: s) :: ss
    | [] => [[c]]

/-- Everything after the first period: Python s.split('.', 1)[-1] for a
string known to contain a period. -/
def afterFirstDot : Str → Str
  | [] => []
  | '.' :: rest => rest
  | _ :: rest => afterFirstDot rest

/-- Python substring test: `needle in hay`. -/
def containsSub (hay needle : Str) : Bool :=
  match hay with
  | [] => needle.isEmpty
  | _ :: rest => needle.isPrefixOf hay || containsSub rest needle

/-- Python str.split on a single given character. -/
def splitChar (sep : Char) : Str → List Str
  | [] => [[]]
  | c :: rest =>
    if c = sep then [] :: splitChar sep rest
    else
      match splitChar sep rest with
      | s :: ss => (c :: s) :: ss
      | [] => [[c]]

/-- Python str.replace(pat, '') for a pattern, removing every
non-overlapping occurrence scanning left to right. -/
def removeAll (pat : Str) (l : Str) : Str :=
  match l with
  | [] => []
  | c :: rest =>
    if h : pat ≠ [] ∧ pat.isPrefixOf (c :: rest) = true then
      removeAll pat ((c :: rest).drop pat.length)
    else c :: removeAll pat rest
termination_by l.length
decreasing_by
  · have hp : pat.length ≥ 1 := by
      cases pat with
      | nil => exact absurd rfl h.1
      | cons _ _ => simp
    simp only [List.length_drop, List.length_cons]
    omega
  · simp

/-! ## news_collector.py -/

/-- The keyword list configured in NewsCollector.__init__. -/
def defaultKeywords : List Str :=
  ["삼성".toList, "현대".toList, "쿠팡".toList, "배달".toList, "부동산".toList,
   "주식".toList, "경제".toList, "정책".toList, "손흥민".toList, "AI".toList]

/-- One article record, as produced by the collectors.  The
relevance_score key is absent (`none`) until filter_trending_news
writes it. -/
structure Article where
  title : Str
  description : Str
  link : Str
  pub_date : Str
  keyword : Str
  source : Str
  relevance_score : Option ℚ := none
deriving DecidableEq

/-- The score computed by the loop in filter_trending_news (lines
126-135): one point per configured keyword whose lowercase form occurs
in the lowercased title, plus the constant recency bonus 0.5. -/
def keywordScore (keywords : List Str) (title : Str) : ℚ :=
  (keywords.countP (fun kw => containsSub (lowerStr title) (lowerStr kw)) : ℚ) + 1/2

/-- The in-place mutation article['relevance_score'] = score. -/
def scoreArticle (keywords : List Str) (a : Article) : Article :=
  { a with relevance_score := some (keywordScore keywords a.title) }

/-- One iteration of the scoring loop.  The first component of the
state is the caller's (mutated) article list, the second is
scored_articles. -/
def filterStep (keywords : List Str) (minRel : ℚ)
    (st : List Article × List Article) (a : Article) :
    List Article × List Article :=
  let a2 := scoreArticle keywords a
  (st.1 ++ [a2],
   if minRel ≤ keywordScore keywords a.title then st.2 ++ [a2] else st.2)

/-- The whole scoring loop of filter_trending_news. -/
def filterPass (keywords : List Str) (minRel : ℚ) (articles : List Article) :
    List Article × List Article :=
  articles.foldl (filterStep keywords minRel) ([], [])

/-- The sort key x['relevance_score'] (always present on sorted
articles; absent treated as 0). -/
def scoreKey (a : Article) : ℚ := a.relevance_score.getD 0

/-- Insert an article into a descending-sorted list, after every
element of not-smaller score: the insertion step of a stable
descending sort. -/
def insertDesc (a : Article) : List Article → List Article
  | [] => [a]
  | b :: bs => if scoreKey b < scoreKey a then a :: b :: bs else b :: insertDesc a bs

/-- Python list.sort(key=relevance_score, reverse=True): a stable
descending sort (Python's sort is stable; any stable sort computes the
same list). -/
def sortDesc (l : List Article) : List Article :=
  l.foldl (fun r a => insertDesc a r) []

/-- filter_trending_news (news_collector.py lines 120-143): score every
article, keep those with score >= min_relevance, sort descending by
score. -/
def filter_trending_news (keywords : List Str) (articles : List Article)
    (minRel : ℚ) : List Article :=
  sortDesc (filterPass keywords minRel articles).2

/-- The caller's article list after filter_trending_news returns: the
loop mutated every article record in place. -/
def articlesAfterFilter (keywords : List Str) (minRel : ℚ)
    (articles : List Article) : List Article :=
  (filterPass keywords minRel articles).1

/-- The articles list with scores written, as a plain map (specification
form of the loop's first component). -/
def scoredArticles (keywords : List Str) (articles : List Article) : List Article :=
  articles.map (scoreArticle keywords)

/-- The retained articles in input order (specification form of
scored_articles before sorting). -/
def keptArticles (keywords : List Str) (minRel : ℚ) (articles : List Article) :
    List Article :=
  (scoredArticles keywords articles).filter (fun a => decide (minRel ≤ scoreKey a))

/-! ## ai_script_generator.py

The HTTP layer is abstracted into `ApiOutcome`: either the transport
raised, or a response arrived with a status code and (when the
backend-specific JSON path could be extracted) the generated text. -/

/-- Outcome of one backend HTTP call.  `content` is the text at the
backend-specific JSON path (choices[0].message.content and so on);
`none` models a body where that extraction raises (caught by the same
except handler in the source). -/
inductive ApiOutcome where
  | success (status : Nat) (content : Option Str)
  | failure (msg : String)
deriving DecidableEq

/-- The canned thumbnail-title reply of _call_mock. -/
def mockThumbnailText : Str :=
  ("\n1. 이거 실화인가요?\n2. 충격! 00억 날렸다\n3. 결국 터졌습니다\n4. 알고 보니 대박\n5. 지금 당장 확인하세요\n6. 99% 모르는 사실\n7. 뒤늦은 후회\n8. 전문가도 놀란\n9. 이제야 밝혀진 진실\n10. 반드시 알아야 할\n            ").toList

/-- The canned metadata reply of _call_mock. -/
def mockMetadataText : Str :=
  ("\nVIDEO_TITLE: [충격] 삼성전자 000억 투자 결정! 주가 영향은?\nDESCRIPTION: 삼성전자가 반도체 분야에 대규모 투자를 결정했습니다. 이번 투자가 국내 경제와 주가에 미칠 영향을 자세히 분석합니다. 출처: 네이버뉴스\nTAGS: 삼성전자, 반도체, 투자, 주가, 경제뉴스, 시니어뉴스, 한국경제, 기술주, 증시, 재테크\n            ").toList

/-- The canned script reply of _call_mock. -/
def mockScriptText : Str :=
  ("\n여러분, 안녕하세요. 오늘은 정말 중요한 소식을 가지고 왔습니다.\n\n[도입부]\n혹시 여러분, 이 소식 들어보셨나요? 최근 많은 분들이 관심을 가지고 계신 내용인데요, 오늘 자세히 알아보도록 하겠습니다.\n\n[본문]\n먼저 사건의 전말을 말씀드리자면... (중략)\n\n이는 우리 생활에 어떤 영향을 미칠까요? 전문가들은...\n\n[마무리]\n오늘 영상이 도움이 되셨다면 구독과 좋아요, 알림 설정 부탁드립니다.\n다음 영상에서는 더 유익한 정보로 찾아뵙겠습니다. 감사합니다.\n            ").toList

/-- _call_mock (lines 202-238): the deterministic offline stand-in,
routed by looking for marker substrings in the prompt. -/
def call_mock (prompt : Str) : Str :=
  if containsSub prompt "썸네일".toList || containsSub prompt "제목".toList then
    mockThumbnailText
  else if containsSub prompt "VIDEO_TITLE".toList || containsSub prompt "메타데이터".toList then
    mockMetadataText
  else
    mockScriptText

/-- _call_openai (lines 131-154): returns the extracted content on a
200 response, and the mock stand-in on any other status, on a body
where the extraction raises, or on a transport exception. -/
def call_openai (outcome : ApiOutcome) (prompt : Str) : Str :=
  match outcome with
  | .failure _ => call_mock prompt
  | .success status content =>
    if status = 200 then
      match content with
      | some text => text
      | none => call_mock prompt
    else call_mock prompt

/-- _call_gemini (lines 156-175): same shape as _call_openai with the
Gemini JSON path. -/
def call_gemini (outcome : ApiOutcome) (prompt : Str) : Str :=
  match outcome with
  | .failure _ => call_mock prompt
  | .success status content =>
    if status = 200 then
      match content with
      | some text => text
      | none => call_mock prompt
    else call_mock prompt

/-- _call_anthropic (lines 177-200): same shape with the Anthropic JSON
path. -/
def call_anthropic (outcome : ApiOutcome) (prompt : Str) : Str :=
  match outcome with
  | .failure _ => call_mock prompt
  | .success status content =>
    if status = 200 then
      match content with
      | some text => text
      | none => call_mock prompt
    else call_mock prompt

/-- _call_ai_api (lines 119-129): dispatch on the configured service
name; unknown names go straight to the mock. -/
def call_ai_api (service : String) (outcome : ApiOutcome) (prompt : Str) : Str :=
  if service = "openai" then call_openai outcome prompt
  else if service = "gemini" then call_gemini outcome prompt
  else if service = "anthropic" then call_anthropic outcome prompt
  else call_mock prompt

/-- A backend outcome the spec calls a failure: a transport exception,
or a response whose HTTP status is not in the 2xx range. -/
def badOutcome : ApiOutcome → Prop
  | .failure _ => True
  | .success status _ => ¬(200 ≤ status ∧ status < 300)

/-- The script prompt of generate_youtube_script (lines 24-50), an
f-string around the article title and description. -/
def scriptPromptOf (title description : Str) : Str :=
  ("\n당신은 시니어층(40~60대)을 대상으로 하는 유튜브 뉴스 채널의 전문 작가입니다.\n\n아래 뉴스 기사를 바탕으로 8~10분 분량의 유튜브 영상 대본을 작성해주세요.\n\n[뉴스 기사]\n제목: ").toList
  ++ title ++ ("\n내용: ").toList ++ description
  ++ ("\n\n[대본 작성 요구사항]\n1. **도입부 (30초)**: 강력한 후킹 멘트로 시작 (예: \"여러분, 이거 아십니까?\", \"충격적인 소식입니다\")\n2. **본문 (7분)**:\n   - 기사 내용을 쉽고 자세하게 설명\n   - 전문 용어는 풀어서 설명\n   - 중간중간 시청자 몰입 유도 멘트 삽입\n3. **마무리 (30초)**:\n   - 핵심 요약\n   - 구독, 좋아요, 알림 설정 요청\n   - 다음 영상 예고\n\n[톤 및 스타일]\n- 전달형, 존중하는 어조\n- \"여러분\", \"~입니다\" 등 정중한 표현\n- 감정적 어필보다는 사실 중심\n\n대본만 출력해주세요.\n        ").toList

/-- The thumbnail prompt of generate_thumbnail_titles (lines 64-79). -/
def thumbnailPromptOf (title : Str) (count : Nat) : Str :=
  ("\n아래 뉴스 제목을 바탕으로 유튜브 썸네일에 들어갈 강력한 후킹 문구를 ").toList
  ++ (toString count).toList
  ++ ("개 생성해주세요.\n\n뉴스 제목: ").toList ++ title
  ++ ("\n\n[요구사항]\n1. 15자 이내로 간결하게\n2. 충격, 궁금증 유발\n3. 다양한 스타일 사용:\n   - 질문형: \"이게 가능해?\"\n   - 숫자형: \"00억 날렸다\"\n   - 충격형: \"경악! ~~\"\n   - 반전형: \"알고보니...\"\n\n각 제목만 번호와 함께 출력해주세요.\n        ").toList

/-- The metadata prompt of generate_video_metadata (lines 92-102),
embedding the first 500 characters of the script. -/
def metadataPromptOf (title script : Str) : Str :=
  ("\n아래 뉴스와 대본을 바탕으로 유튜브 영상 메타데이터를 생성해주세요.\n\n뉴스 제목: ").toList
  ++ title ++ ("\n대본: ").toList ++ script.take 500
  ++ ("...\n\n다음 형식으로 출력:\nVIDEO_TITLE: [60자 이내 영상 제목]\nDESCRIPTION: [200자 정도 영상 설명, 뉴스 출처 포함]\nTAGS: [관련 태그 10개, 쉼표로 구분]\n        ").toList

/-- The result dict of generate_youtube_script. -/
structure ScriptResult where
  article_title : Str
  script : Str
  estimated_duration : String
  generated_at : String
deriving DecidableEq

/-- generate_youtube_script (lines 21-59).  `now` stands for
datetime.now().isoformat(). -/
def generate_youtube_script (service : String) (outcome : ApiOutcome)
    (now : String) (a : Article) : ScriptResult :=
  { article_title := a.title,
    script := call_ai_api service outcome (scriptPromptOf a.title a.description),
    estimated_duration := "8-10분",
    generated_at := now }

/-- The line filter of generate_thumbnail_titles line 84: the stripped
line is non-empty and some of the first three characters of the raw
line is a digit. -/
def keepTitleLine (line : Str) : Bool :=
  !(strip line).isEmpty && (line.take 3).any Char.isDigit

/-- The numeral-stripping of line 85: when a period occurs among the
first five characters, drop everything through the first period and
strip; otherwise keep the line as it is. -/
def stripNumeral (t : Str) : Str :=
  if (t.take 5).contains '.' then strip (afterFirstDot t) else t

/-- The response parsing of generate_thumbnail_titles (lines 83-87). -/
def parseTitles (response : Str) (count : Nat) : List Str :=
  let titles := ((splitChar '\n' response).filter keepTitleLine).map strip
  (titles.map stripNumeral).take count

/-- generate_thumbnail_titles (lines 61-87). -/
def generate_thumbnail_titles (service : String) (outcome : ApiOutcome)
    (a : Article) (count : Nat) : List Str :=
  parseTitles (call_ai_api service outcome (thumbnailPromptOf a.title count)) count

/-- The metadata dict built by generate_video_metadata; every key is
absent until its marker line is seen. -/
structure VideoMetadata where
  title : Option Str := none
  description : Option Str := none
  tags : Option (List Str) := none
deriving DecidableEq

/-- One line of the metadata parsing loop (lines 107-115). -/
def metadataStep (md : VideoMetadata) (line : Str) : VideoMetadata :=
  if ("VIDEO_TITLE:".toList).isPrefixOf line then
    { md with title := some (strip (removeAll ("VIDEO_TITLE:".toList) line)) }
  else if ("DESCRIPTION:".toList).isPrefixOf line then
    { md with description := some (strip (removeAll ("DESCRIPTION:".toList) line)) }
  else if ("TAGS:".toList).isPrefixOf line then
    let tagsStr := strip (removeAll ("TAGS:".toList) line)
    { md with tags := some ((splitChar ',' tagsStr).map strip) }
  else md

/-- The parsing of generate_video_metadata (lines 106-117). -/
def parseMetadata (response : Str) : VideoMetadata :=
  (splitChar '\n' response).foldl metadataStep {}

/-- generate_video_metadata (lines 89-117). -/
def generate_video_metadata (service : String) (outcome : ApiOutcome)
    (a : Article) (script : Str) : VideoMetadata :=
  parseMetadata (call_ai_api service outcome (metadataPromptOf a.title script))

/-! ## tts_generator.py -/

/-- text.replace('\n', ' ') applied character-wise. -/
def blankNewline (c : Char) : Char := if c = '\n' then ' ' else c

/-- The sentence list of split_text_for_tts line 211:
text.replace('\n', ' ').split('. '). -/
def sentencesOf (text : Str) : List Str :=
  splitDotSpace (text.map blankNewline)

/-- One iteration of the chunking loop (lines 215-221).  State: the
chunks emitted so far and current_chunk. -/
def chunkStep (maxLen : Nat) (st : List Str × Str) (s : Str) : List Str × Str :=
  if st.2.length + s.length < maxLen then
    (st.1, st.2 ++ s ++ ['.', ' '])
  else if st.2.isEmpty then
    (st.1, s ++ ['.', ' '])
  else
    (st.1 ++ [strip st.2], s ++ ['.', ' '])

/-- The trailing flush of the chunking loop (lines 223-224): a
non-empty final current_chunk is stripped and appended. -/
def finishChunks (p : List Str × Str) : List Str :=
  if p.2.isEmpty then p.1 else p.1 ++ [strip p.2]

/-- split_text_for_tts (lines 209-226). -/
def split_text_for_tts (text : Str) (maxLen : Nat) : List Str :=
  finishChunks ((sentencesOf text).foldl (chunkStep maxLen) ([], []))

/-- The current_chunk produced by accumulating a group of sentences:
each sentence followed by the reinserted separator ". ". -/
def renderGroup (g : List Str) : Str :=
  (g.map (fun s => s ++ ['.', ' '])).flatten

/-! ## youtube_uploader.py -/

/-- The JSON body built by upload_video before sending (lines 99-115):
snippet and status fields. -/
structure UploadRequestBody where
  title : Str
  description : Str
  tags : List Str
  categoryId : Str
  privacyStatus : String
  selfDeclaredMadeForKids : Bool
  publishAt : Option String
deriving DecidableEq

/-- Request-body construction of upload_video: title and description
sliced to the platform limits, and publishAt attached only for private
scheduled uploads.  `publishAt` carries publish_at.isoformat(). -/
def buildUploadBody (title description : Str) (tags : List Str)
    (categoryId : Str) (privacyStatus : String) (publishAt : Option String) :
    UploadRequestBody :=
  let base : UploadRequestBody :=
    { title := title.take 100,
      description := description.take 5000,
      tags := tags,
      categoryId := categoryId,
      privacyStatus := privacyStatus,
      selfDeclaredMadeForKids := false,
      publishAt := none }
  match publishAt with
  | some t =>
    if privacyStatus = "private" then
      { base with publishAt := some (t ++ "Z"), privacyStatus := "private" }
    else base
  | none => base

/-- The uploader's environment: whether the client libraries imported
and whether authentication produced a client.  `now` stands for the
strftime timestamp used for mock video ids. -/
structure UploadEnv where
  apiAvailable : Bool
  hasClient : Bool
  now : String
deriving DecidableEq

/-- Outcome of the chunked upload request on the real path. -/
inductive UploadOutcome where
  | ok (videoId : String)
  | err (msg : String)
deriving DecidableEq

/-- The dict returned by upload_video. -/
structure UploadResult where
  status : String
  video_id : Option String := none
  video_url : Option String := none
  title : Option Str := none
  privacy_status : Option String := none
  publish_at : Option String := none
  error : Option String := none
deriving DecidableEq

/-- _upload_mock (lines 177-193): the no-credentials stand-in.  The
title is forwarded untouched. -/
def upload_mock (env : UploadEnv) (title : Str) : UploadResult :=
  { status := "success (mock)",
    video_id := some ("MOCK_" ++ env.now),
    video_url := some ("https://www.youtube.com/watch?v=MOCK_" ++ env.now),
    title := some title }

/-- upload_video (lines 72-164).  When the API library is missing or no
client was authenticated it falls through to the mock; otherwise the
result reflects the outcome of the chunked upload of the truncated
body. -/
def upload_video (env : UploadEnv) (send : UploadRequestBody → UploadOutcome)
    (title description : Str) (tags : List Str) (categoryId : Str)
    (privacyStatus : String) (publishAt : Option String) : UploadResult :=
  if !env.apiAvailable || !env.hasClient then upload_mock env title
  else
    let body := buildUploadBody title description tags categoryId privacyStatus publishAt
    match send body with
    | .ok vid =>
      { status := "success",
        video_id := some vid,
        video_url := some ("https://www.youtube.com/watch?v=" ++ vid),
        title := some title,
        privacy_status := some privacyStatus,
        publish_at := publishAt }
    | .err e => { status := "error", error := some e }

/-! ## main_workflow.py -/

/-- The per-run result record built by _process_single_article. -/
structure RunResult where
  article_title : Str
  status : String
  error : Option String := none
  script : Option Str := none
  thumbnail_title : Option Str := none
  metadata : Option VideoMetadata := none
  audio_file : Option Str := none
  video_file : Option Str := none
  video_url : Option String := none
  video_id : Option String := none
deriving DecidableEq

/-- The pipeline stages invoked inside the try block of
_process_single_article, abstracted as fallible operations: a `.error`
models the stage raising an unhandled exception with that message. -/
structure Stages where
  genScript : Article → Except String ScriptResult
  genThumbs : Article → Except String (List Str)
  genMeta : Article → Str → Except String VideoMetadata
  genAudio : Str → Except String Str
  editVideo : Str → Str → Except String Str
  upload : Str → Str → Str → List Str → Except String UploadResult

/-- _process_single_article (main_workflow.py lines 135-203): run the
stages in order, recording partial artifacts; the surrounding
try/except turns the first raised error into status 'failed' with the
captured text, and otherwise the run ends 'completed'. -/
def process_single_article (st : Stages) (autoUpload : Bool) (a : Article) :
    RunResult :=
  let r0 : RunResult := { article_title := a.title, status := "processing" }
  match st.genScript a with
  | .error e => { r0 with status := "failed", error := some e }
  | .ok sd =>
    let r1 := { r0 with script := some sd.script }
    match st.genThumbs a with
    | .error e => { r1 with status := "failed", error := some e }
    | .ok thumbs =>
      let best := thumbs.headD a.title
      let r2 := { r1 with thumbnail_title := some best }
      match st.genMeta a sd.script with
      | .error e => { r2 with status := "failed", error := some e }
      | .ok md =>
        let r3 := { r2 with metadata := some md }
        match st.genAudio sd.script with
        | .error e => { r3 with status := "failed", error := some e }
        | .ok audio =>
          let r4 := { r3 with audio_file := some audio }
          match st.editVideo audio sd.script with
          | .error e => { r4 with status := "failed", error := some e }
          | .ok video =>
            let r5 := { r4 with video_file := some video }
            if autoUpload then
              match st.upload video (md.title.getD a.title) (md.description.getD []) (md.tags.getD []) with
              | .error e => { r5 with status := "failed", error := some e }
              | .ok ur =>
                { r5 with status := "completed",
                          video_url := ur.video_url, video_id := ur.video_id }
            else { r5 with status := "completed" }

/-- The per-article loop of run_full_workflow (lines 80-89): every
selected article is processed and its result appended, independently
of the other articles' outcomes. -/
def runBatch (st : Stages) (autoUpload : Bool) (selected : List Article) :
    List RunResult :=
  selected.map (process_single_article st autoUpload)

/-- The first stage error raised while processing one article (`none`
when every executed stage succeeds).  Mirrors the stage order of
_process_single_article. -/
def stageError (st : Stages) (autoUpload : Bool) (a : Article) : Option String :=
  match st.genScript a with
  | .error e => some e
  | .ok sd =>
    match st.genThumbs a with
    | .error e => some e
    | .ok _ =>
      match st.genMeta a sd.script with
      | .error e => some e
      | .ok md =>
        match st.genAudio sd.script with
        | .error e => some e
        | .ok audio =>
          match st.editVideo audio sd.script with
          | .error e => some e
          | .ok video =>
            if autoUpload then
              match st.upload video (md.title.getD a.title) (md.description.getD []) (md.tags.getD []) with
              | .error e => some e
              | .ok _ => none
            else none

/-! ## Concrete fixtures used by witnesses -/

/-- An article with a given title and empty remaining fields. -/
def demoArticle (t : String) : Article :=
  { title := t.toList, description := [], link := [], pub_date := [],
    keyword := [], source := [] }

def artSamsung : Article := demoArticle "삼성전자 투자 발표"

def artWeather : Article := demoArticle "날씨 예보"

/-- A 12,000-character text containing no period at all, hence with no
sentence boundary near position 5,000. -/
def longText : Str := List.replicate 12000 'a'

/-- A stage configuration whose script stage raises. -/
def stagesFail : Stages :=
  { genScript := fun _ => .error "script backend exploded",
    genThumbs := fun _ => .ok [],
    genMeta := fun _ _ => .ok {},
    genAudio := fun _ => .ok ("audio.mp3").toList,
    editVideo := fun _ _ => .ok ("video.mp4").toList,
    upload := fun _ _ _ _ => .ok { status := "success" } }

end NewsAuto

/-! # Lemmas and claim theorems -/

namespace NewsAuto

/-! ## String lemmas -/

/-- The empty string is a substring of everything. -/
lemma containsSub_nil (hay : Str) : containsSub hay [] = true := by
  induction hay with
  | nil => rfl
  | cons c rest ih => simp [containsSub, List.isPrefixOf]

lemma isPrefixOf_append (n h t : Str) (hp : n.isPrefixOf h = true) :
    n.isPrefixOf (h ++ t) = true := by
  induction n generalizing h with
  | nil => simp [List.isPrefixOf]
  | cons c n ih =>
    cases h with
    | nil => simp [List.isPrefixOf] at hp
    | cons d h2 =>
      simp only [List.cons_append, List.isPrefixOf, Bool.and_eq_true] at hp ⊢
      exact ⟨hp.1, ih h2 hp.2⟩

/-- A substring of a string is a substring of any right extension. -/
lemma containsSub_append (hay hay2 needle : Str)
    (h : containsSub hay needle = true) :
    containsSub (hay ++ hay2) needle = true := by
  induction hay with
  | nil =>
    simp [containsSub, List.isEmpty_iff] at h
    subst h
    exact containsSub_nil hay2
  | cons c rest ih =>
    simp only [containsSub, Bool.or_eq_true] at h ⊢
    rcases h with h | h
    · exact Or.inl (isPrefixOf_append _ _ _ h)
    · exact Or.inr (ih h)

/-- Lowercasing commutes with concatenation. -/
lemma lowerStr_append (s t : Str) :
    lowerStr (s ++ t) = lowerStr s ++ lowerStr t := by
  simp [lowerStr]

/-- Stripping never lengthens a string. -/
lemma strip_length_le (s : Str) : (strip s).length ≤ s.length := by
  unfold strip dropTrailing
  calc ((s.reverse.dropWhile isPySpace).reverse.dropWhile isPySpace).length
      ≤ (s.reverse.dropWhile isPySpace).reverse.length :=
        (List.dropWhile_sublist _).length_le
    _ = (s.reverse.dropWhile isPySpace).length := by simp
    _ ≤ s.reverse.length := (List.dropWhile_sublist _).length_le
    _ = s.length := by simp

/-- A trailing whitespace character is removed by dropTrailing. -/
lemma dropTrailing_append_space (d : Str) (c : Char) (hc : isPySpace c = true) :
    dropTrailing (d ++ [c]) = dropTrailing d := by
  unfold dropTrailing
  rw [List.reverse_append]
  simp [List.dropWhile_cons, hc]

/-- Stripping ignores one trailing whitespace character. -/
lemma strip_append_space (d : Str) (c : Char) (hc : isPySpace c = true) :
    strip (d ++ [c]) = strip d := by
  unfold strip
  rw [dropTrailing_append_space d c hc]

/-! ## C8: relevance score monotonicity -/

/-- C8: relevance scoring is monotonic — appending an occurrence of a
configured keyword to a title never decreases the title's relevance
score (news_collector.py lines 125-137). -/
theorem relevance_score_monotone (keywords : List Str) (title kw : Str)
    (hkw : kw ∈ keywords) :
    keywordScore keywords title ≤ keywordScore keywords (title ++ kw) := by
  unfold keywordScore
  have hcount :
      keywords.countP (fun k => containsSub (lowerStr title) (lowerStr k)) ≤
      keywords.countP (fun k => containsSub (lowerStr (title ++ kw)) (lowerStr k)) := by
    refine List.countP_mono_left (fun k hk hp => ?_)
    rw [lowerStr_append]
    exact containsSub_append _ _ _ hp
  have : ((keywords.countP (fun k => containsSub (lowerStr title) (lowerStr k)) : ℚ)) ≤
      (keywords.countP (fun k => containsSub (lowerStr (title ++ kw)) (lowerStr k)) : ℚ) := by
    exact_mod_cast hcount
  linarith

/-- Witness for C8 at the configured keyword 삼성 and the
keyword-free title 날씨 예보. -/
theorem relevance_score_monotone_witness :
    ("삼성".toList ∈ ["삼성".toList]) ∧
    keywordScore ["삼성".toList] "날씨 예보".toList ≤
      keywordScore ["삼성".toList] ("날씨 예보".toList ++ "삼성".toList) :=
  ⟨by decide, relevance_score_monotone ["삼성".toList] "날씨 예보".toList "삼성".toList (by decide)⟩

/-! ## Sorting and filtering lemmas for filter_trending_news -/

/-- Every score carries the 0.5 recency bonus, so it is at least 1/2. -/
lemma half_le_keywordScore (ks : List Str) (t : Str) :
    (1:ℚ)/2 ≤ keywordScore ks t := by
  unfold keywordScore
  have h0 : (0:ℚ) ≤
      (ks.countP (fun kw => containsSub (lowerStr t) (lowerStr kw)) : ℚ) := by
    positivity
  linarith

lemma score_samsung :
    keywordScore ["삼성".toList] "삼성전자 투자 발표".toList = 3/2 := by
  unfold keywordScore
  rw [show List.countP
      (fun kw => containsSub (lowerStr "삼성전자 투자 발표".toList) (lowerStr kw))
      ["삼성".toList] = 1 from by decide]
  norm_num

lemma score_weather :
    keywordScore ["삼성".toList] "날씨 예보".toList = 1/2 := by
  unfold keywordScore
  rw [show List.countP
      (fun kw => containsSub (lowerStr "날씨 예보".toList) (lowerStr kw))
      ["삼성".toList] = 0 from by decide]
  norm_num

lemma insertDesc_perm (a : Article) (l : List Article) :
    (insertDesc a l).Perm (a :: l) := by
  induction l with
  | nil => exact List.Perm.refl _
  | cons b bs ih =>
    unfold insertDesc
    by_cases hb : scoreKey b < scoreKey a
    · rw [if_pos hb]
    · rw [if_neg hb]
      exact (ih.cons b).trans (List.Perm.swap a b bs)

lemma insertDesc_pairwise (a : Article) (l : List Article)
    (h : l.Pairwise (fun x y => scoreKey y ≤ scoreKey x)) :
    (insertDesc a l).Pairwise (fun x y => scoreKey y ≤ scoreKey x) := by
  induction l with
  | nil => simp [insertDesc]
  | cons b bs ih =>
    rcases List.pairwise_cons.mp h with ⟨hb, hbs⟩
    unfold insertDesc
    by_cases hba : scoreKey b < scoreKey a
    · rw [if_pos hba]
      refine List.pairwise_cons.mpr ⟨?_, h⟩
      intro x hx
      rcases List.mem_cons.mp hx with rfl | hx
      · exact le_of_lt hba
      · exact le_trans (hb x hx) (le_of_lt hba)
    · rw [if_neg hba]
      refine List.pairwise_cons.mpr ⟨?_, ih hbs⟩
      intro x hx
      rcases (insertDesc_perm a bs).mem_iff.mp hx with hx2
      rcases List.mem_cons.mp hx2 with rfl | hx3
      · exact le_of_not_lt hba
      · exact hb x hx3

lemma insertDesc_filter_neg (a : Article) (l : List Article)
    (p : Article → Bool) (hpa : p a = false) :
    (insertDesc a l).filter p = l.filter p := by
  induction l with
  | nil => simp [insertDesc, hpa]
  | cons b bs ih =>
    unfold insertDesc
    by_cases hb : scoreKey b < scoreKey a
    · rw [if_pos hb]
      simp [List.filter_cons, hpa]
    · rw [if_neg hb]
      simp only [List.filter_cons, ih]

lemma insertDesc_filter_eq (a : Article) (l : List Article)
    (h : l.Pairwise (fun x y => scoreKey y ≤ scoreKey x)) :
    (insertDesc a l).filter (fun b => decide (scoreKey b = scoreKey a)) =
      l.filter (fun b => decide (scoreKey b = scoreKey a)) ++ [a] := by
  induction l with
  | nil => simp [insertDesc]
  | cons b bs ih =>
    rcases List.pairwise_cons.mp h with ⟨hb, hbs⟩
    unfold insertDesc
    by_cases hba : scoreKey b < scoreKey a
    · rw [if_pos hba]
      have hbne : ¬ (scoreKey b = scoreKey a) := ne_of_lt hba
      have hrest : ∀ x ∈ bs, ¬ (decide (scoreKey x = scoreKey a) = true) := by
        intro x hx
        have hxb : scoreKey x ≤ scoreKey b := hb x hx
        simp only [decide_eq_true_eq]
        intro he
        exact absurd (lt_of_le_of_lt (he ▸ hxb.trans (le_refl _)) hba) (by
          rw [he] at hxb
          exact absurd (lt_of_le_of_lt hxb hba) (lt_irrefl _))
      have hnil : bs.filter (fun x => decide (scoreKey x = scoreKey a)) = [] :=
        List.filter_eq_nil_iff.mpr hrest
      simp [List.filter_cons, hbne, hnil]
    · rw [if_neg hba]
      by_cases hbeq : scoreKey b = scoreKey a
      · simp [List.filter_cons, hbeq, ih hbs]
      · simp [List.filter_cons, hbeq, ih hbs]

lemma sortLoop_perm (l acc : List Article) :
    (l.foldl (fun r a => insertDesc a r) acc).Perm (acc ++ l) := by
  induction l generalizing acc with
  | nil => simp
  | cons a l ih =>
    simp only [List.foldl_cons]
    exact ((ih (insertDesc a acc)).trans
      ((insertDesc_perm a acc).append_right l)).trans List.perm_middle.symm

lemma sortLoop_pairwise (l acc : List Article)
    (h : acc.Pairwise (fun x y => scoreKey y ≤ scoreKey x)) :
    (l.foldl (fun r a => insertDesc a r) acc).Pairwise
      (fun x y => scoreKey y ≤ scoreKey x) := by
  induction l generalizing acc with
  | nil => simpa using h
  | cons a l ih =>
    simp only [List.foldl_cons]
    exact ih _ (insertDesc_pairwise a acc h)

lemma sortLoop_filter (q : ℚ) (l acc : List Article)
    (h : acc.Pairwise (fun x y => scoreKey y ≤ scoreKey x)) :
    (l.foldl (fun r a => insertDesc a r) acc).filter
        (fun b => decide (scoreKey b = q)) =
      acc.filter (fun b => decide (scoreKey b = q)) ++
        l.filter (fun b => decide (scoreKey b = q)) := by
  induction l generalizing acc with
  | nil => simp
  | cons a l ih =>
    simp only [List.foldl_cons]
    rw [ih _ (insertDesc_pairwise a acc h)]
    by_cases haq : scoreKey a = q
    · have : (insertDesc a acc).filter (fun b => decide (scoreKey b = q)) =
          acc.filter (fun b => decide (scoreKey b = q)) ++ [a] := by
        rw [← haq]
        exact insertDesc_filter_eq a acc h
      rw [this]
      simp [List.filter_cons, haq]
    · have : (insertDesc a acc).filter (fun b => decide (scoreKey b = q)) =
          acc.filter (fun b => decide (scoreKey b = q)) := by
        refine insertDesc_filter_neg a acc _ ?_
        simp [haq]
      rw [this]
      simp [List.filter_cons, haq]

lemma sortDesc_perm (l : List Article) : (sortDesc l).Perm l := by
  unfold sortDesc
  simpa using sortLoop_perm l []

lemma sortDesc_pairwise (l : List Article) :
    (sortDesc l).Pairwise (fun x y => scoreKey y ≤ scoreKey x) := by
  unfold sortDesc
  exact sortLoop_pairwise l [] (List.Pairwise.nil)

lemma sortDesc_stable (q : ℚ) (l : List Article) :
    (sortDesc l).filter (fun b => decide (scoreKey b = q)) =
      l.filter (fun b => decide (scoreKey b = q)) := by
  unfold sortDesc
  simpa using sortLoop_filter q l [] (List.Pairwise.nil)

lemma scoreKey_scoreArticle (ks : List Str) (a : Article) :
    scoreKey (scoreArticle ks a) = keywordScore ks a.title := rfl

lemma filterPass_go (ks : List Str) (m : ℚ) (arts : List Article) :
    ∀ st : List Article × List Article,
      arts.foldl (filterStep ks m) st =
        (st.1 ++ scoredArticles ks arts, st.2 ++ keptArticles ks m arts) := by
  induction arts with
  | nil => intro st; simp [scoredArticles, keptArticles]
  | cons a arts ih =>
    intro st
    simp only [List.foldl_cons, ih]
    by_cases hm : m ≤ keywordScore ks a.title
    · simp [filterStep, scoredArticles, keptArticles, List.filter_cons,
        scoreKey_scoreArticle, hm]
    · simp [filterStep, scoredArticles, keptArticles, List.filter_cons,
        scoreKey_scoreArticle, hm]

lemma filterPass_eq (ks : List Str) (m : ℚ) (arts : List Article) :
    filterPass ks m arts = (scoredArticles ks arts, keptArticles ks m arts) := by
  unfold filterPass
  simpa using filterPass_go ks m arts ([], [])

/-! ## C1: the relevance filter -/

/-- C1: filter_trending_news scores each article as the keyword count
plus the 0.5 bonus, keeps exactly the articles whose score reaches
min_relevance (boundary inclusive), and returns them sorted by
descending score with ties in input order; in particular with
min_score 0.5 and keyword 삼성, the title 삼성전자 투자 발표 scores 1.5
and is retained and the title 날씨 예보 scores 0.5 and is retained. -/
theorem filter_trending_news_spec (ks : List Str) (m : ℚ) (arts : List Article) :
    (∀ a ∈ filter_trending_news ks arts m,
        a.relevance_score = some (keywordScore ks a.title)) ∧
    (filter_trending_news ks arts m).Perm (keptArticles ks m arts) ∧
    (filter_trending_news ks arts m).Pairwise (fun x y => scoreKey y ≤ scoreKey x) ∧
    (∀ q : ℚ, (filter_trending_news ks arts m).filter (fun b => decide (scoreKey b = q)) =
        (keptArticles ks m arts).filter (fun b => decide (scoreKey b = q))) ∧
    keywordScore ["삼성".toList] artSamsung.title = 3/2 ∧
    keywordScore ["삼성".toList] artWeather.title = 1/2 ∧
    scoreArticle ["삼성".toList] artSamsung ∈
      filter_trending_news ["삼성".toList] [artSamsung, artWeather] (1/2) ∧
    scoreArticle ["삼성".toList] artWeather ∈
      filter_trending_news ["삼성".toList] [artSamsung, artWeather] (1/2) := by
  have hout : ∀ (ks2 : List Str) (m2 : ℚ) (arts2 : List Article),
      filter_trending_news ks2 arts2 m2 = sortDesc (keptArticles ks2 m2 arts2) := by
    intro ks2 m2 arts2
    unfold filter_trending_news
    rw [filterPass_eq]
  have hkept : keptArticles ["삼성".toList] (1/2) [artSamsung, artWeather] =
      [scoreArticle ["삼성".toList] artSamsung, scoreArticle ["삼성".toList] artWeather] := by
    unfold keptArticles scoredArticles
    simp only [List.map_cons, List.map_nil, List.filter_cons, List.filter_nil,
      scoreKey_scoreArticle]
    rw [decide_eq_true (half_le_keywordScore _ _), decide_eq_true (half_le_keywordScore _ _)]
    simp
  refine ⟨?_, ?_, ?_, ?_, ?_, ?_, ?_, ?_⟩
  · intro a ha
    rw [hout ks m arts] at ha
    have ha2 := (sortDesc_perm _).mem_iff.mp ha
    unfold keptArticles scoredArticles at ha2
    rcases List.mem_filter.mp ha2 with ⟨ha3, _⟩
    rcases List.mem_map.mp ha3 with ⟨b, _, rfl⟩
    simp [scoreArticle]
  · rw [hout ks m arts]; exact sortDesc_perm _
  · rw [hout ks m arts]; exact sortDesc_pairwise _
  · intro q; rw [hout ks m arts]; exact sortDesc_stable q _
  · simpa [artSamsung, demoArticle] using score_samsung
  · simpa [artWeather, demoArticle] using score_weather
  · rw [hout, hkept]
    exact (sortDesc_perm _).mem_iff.mpr (by simp)
  · rw [hout, hkept]
    exact (sortDesc_perm _).mem_iff.mpr (by simp)

/-- Witness for C1: the membership conjunct discharges the
universally-quantified conjunct's hypothesis at the retained 삼성
article. -/
theorem filter_trending_news_spec_witness :
    (scoreArticle ["삼성".toList] artSamsung).relevance_score =
      some (keywordScore ["삼성".toList] (scoreArticle ["삼성".toList] artSamsung).title) := by
  have h := filter_trending_news_spec ["삼성".toList] (1/2) [artSamsung, artWeather]
  exact h.1 _ h.2.2.2.2.2.2.1

/-! ## C9: the filter mutates every input article -/

/-- C9: filter_trending_news writes relevance_score into every article
record of the caller's list — including articles scoring below the
threshold, which are absent from the returned list — and leaves every
other field unchanged. -/
theorem filter_mutates_all_articles (ks : List Str) (m : ℚ) (arts : List Article) :
    articlesAfterFilter ks m arts = arts.map (scoreArticle ks) ∧
    (articlesAfterFilter ks m arts).length = arts.length ∧
    (∀ a ∈ arts,
      (scoreArticle ks a).relevance_score = some (keywordScore ks a.title) ∧
      (scoreArticle ks a).title = a.title ∧
      (scoreArticle ks a).description = a.description ∧
      (scoreArticle ks a).link = a.link ∧
      (scoreArticle ks a).pub_date = a.pub_date ∧
      (scoreArticle ks a).keyword = a.keyword ∧
      (scoreArticle ks a).source = a.source) ∧
    (∀ a ∈ arts, keywordScore ks a.title < m →
      scoreArticle ks a ∈ articlesAfterFilter ks m arts ∧
      scoreArticle ks a ∉ filter_trending_news ks arts m) := by
  have hafter : articlesAfterFilter ks m arts = arts.map (scoreArticle ks) := by
    unfold articlesAfterFilter
    rw [filterPass_eq]
    rfl
  refine ⟨hafter, by rw [hafter]; simp, ?_, ?_⟩
  · intro a _
    exact ⟨rfl, rfl, rfl, rfl, rfl, rfl, rfl⟩
  · intro a ha hlt
    constructor
    · rw [hafter]
      exact List.mem_map.mpr ⟨a, ha, rfl⟩
    · intro hmem
      unfold filter_trending_news at hmem
      rw [filterPass_eq] at hmem
      have hmem2 := (sortDesc_perm _).mem_iff.mp hmem
      unfold keptArticles at hmem2
      rcases List.mem_filter.mp hmem2 with ⟨_, hdec⟩
      rw [scoreKey_scoreArticle] at hdec
      exact absurd (of_decide_eq_true hdec) (not_le.mpr hlt)

/-- Witness for C9: with threshold 2, the 삼성 article (score 1.5) is
dropped from the output yet still mutated in the caller's list. -/
theorem filter_mutates_all_articles_witness :
    scoreArticle ["삼성".toList] artSamsung ∈
      articlesAfterFilter ["삼성".toList] 2 [artSamsung] ∧
    scoreArticle ["삼성".toList] artSamsung ∉
      filter_trending_news ["삼성".toList] [artSamsung] 2 := by
  have h := filter_mutates_all_articles ["삼성".toList] 2 [artSamsung]
  refine h.2.2.2 artSamsung (by simp) ?_
  have hs : keywordScore ["삼성".toList] artSamsung.title = 3/2 := by
    simpa [artSamsung, demoArticle] using score_samsung
  rw [hs]
  norm_num

/-! ## C5: backend failures degrade to the offline stand-in -/

lemma call_openai_bad (o : ApiOutcome) (p : Str) (hbad : badOutcome o) :
    call_openai o p = call_mock p := by
  cases o with
  | failure msg => rfl
  | success status content =>
    have hs : status ≠ 200 := by
      intro he
      exact hbad (by rw [he]; exact ⟨le_refl _, by norm_num⟩)
    simp [call_openai, hs]

lemma call_gemini_bad (o : ApiOutcome) (p : Str) (hbad : badOutcome o) :
    call_gemini o p = call_mock p := by
  cases o with
  | failure msg => rfl
  | success status content =>
    have hs : status ≠ 200 := by
      intro he
      exact hbad (by rw [he]; exact ⟨le_refl _, by norm_num⟩)
    simp [call_gemini, hs]

lemma call_anthropic_bad (o : ApiOutcome) (p : Str) (hbad : badOutcome o) :
    call_anthropic o p = call_mock p := by
  cases o with
  | failure msg => rfl
  | success status content =>
    have hs : status ≠ 200 := by
      intro he
      exact hbad (by rw [he]; exact ⟨le_refl _, by norm_num⟩)
    simp [call_anthropic, hs]

lemma call_ai_api_bad (service : String) (o : ApiOutcome) (p : Str)
    (hbad : badOutcome o) : call_ai_api service o p = call_mock p := by
  unfold call_ai_api
  by_cases h1 : service = "openai"
  · simp [h1, call_openai_bad o p hbad]
  · by_cases h2 : service = "gemini"
    · simp [h1, h2, call_gemini_bad o p hbad]
    · by_cases h3 : service = "anthropic"
      · simp [h1, h2, h3, call_anthropic_bad o p hbad]
      · simp [h1, h2, h3]

/-- C5: on a non-2xx HTTP status or a transport exception, every
Content Generator operation returns the deterministic offline stand-in
result computed from _call_mock, so callers never observe a failure
from the component (ai_script_generator.py lines 119-154). -/
theorem generator_backend_fallback (service : String) (o : ApiOutcome)
    (prompt : Str) (now : String) (a : Article) (script : Str) (count : Nat)
    (hbad : badOutcome o) :
    call_ai_api service o prompt = call_mock prompt ∧
    generate_youtube_script service o now a =
      { article_title := a.title,
        script := call_mock (scriptPromptOf a.title a.description),
        estimated_duration := "8-10분",
        generated_at := now } ∧
    generate_thumbnail_titles service o a count =
      parseTitles (call_mock (thumbnailPromptOf a.title count)) count ∧
    generate_video_metadata service o a script =
      parseMetadata (call_mock (metadataPromptOf a.title script)) := by
  refine ⟨call_ai_api_bad service o prompt hbad, ?_, ?_, ?_⟩
  · unfold generate_youtube_script
    rw [call_ai_api_bad _ _ _ hbad]
  · unfold generate_thumbnail_titles
    rw [call_ai_api_bad _ _ _ hbad]
  · unfold generate_video_metadata
    rw [call_ai_api_bad _ _ _ hbad]

/-- Witness for C5 at a concrete transport exception. -/
theorem generator_backend_fallback_witness :
    call_ai_api "openai" (.failure "timeout") ("질문".toList) =
      call_mock ("질문".toList) :=
  (generator_backend_fallback "openai" (.failure "timeout") ("질문".toList)
    "2026-10-12" artSamsung [] 10 (by trivial)).1

/-! ## C2: thumbnail-title parsing (corrected) -/

/-- Refutation of C2 as stated: the line x1 삼성 does not start with a
numeral-prefixed pattern yet is kept (so with one numerically-prefixed
line the output has two entries, not min(1, 10) = 1), and the kept
numerically-prefixed line 1) 대박 is returned with its numeral prefix
and punctuation intact because only period-punctuated prefixes are
stripped. -/
theorem thumbnail_parse_counterexample :
    generate_thumbnail_titles "openai"
        (.success 200 (some ("x1 삼성\n1) 대박").toList)) (demoArticle "기사") 10 =
      [("x1 삼성").toList, ("1) 대박").toList] ∧
    ("x1 삼성").toList.head? = some 'x' ∧
    ('x'.isDigit = false) ∧
    ("1) 대박").toList.head? = some '1' ∧
    ('1'.isDigit = true) := by
  refine ⟨by decide, by decide, by decide, by decide, by decide⟩

/-- C2 amended: a line is kept iff it is non-blank and has a digit
among its first three characters; each kept line is stripped and, only
when a period occurs among its first five characters, its prefix
through the first period is removed; the output is the first `count`
such lines, so its length is min(number of kept lines, count). -/
theorem thumbnail_parse_amended (raw : Str) (count : Nat) :
    (parseTitles raw count).length =
      min ((splitChar '\n' raw).countP keepTitleLine) count ∧
    (∀ t ∈ parseTitles raw count,
      ∃ line ∈ splitChar '\n' raw,
        keepTitleLine line = true ∧ t = stripNumeral (strip line)) ∧
    (∀ a : Article,
      generate_thumbnail_titles "openai" (.success 200 (some raw)) a count =
        parseTitles raw count) := by
  refine ⟨?_, ?_, ?_⟩
  · unfold parseTitles
    rw [List.length_take, List.length_map, List.length_map,
      List.countP_eq_length_filter, Nat.min_comm]
  · intro t ht
    unfold parseTitles at ht
    have ht2 := List.take_subset _ _ ht
    rcases List.mem_map.mp ht2 with ⟨u, hu, rfl⟩
    rcases List.mem_map.mp hu with ⟨line, hline, rfl⟩
    rcases List.mem_filter.mp hline with ⟨hmem, hkeep⟩
    exact ⟨line, hmem, hkeep, rfl⟩
  · intro a
    unfold generate_thumbnail_titles call_ai_api call_openai
    simp

/-- Witness for C2 amended: the membership conjunct applied to the
parsed entry of the response 1. 안녕. -/
theorem thumbnail_parse_amended_witness :
    ("안녕".toList ∈ parseTitles ("1. 안녕".toList) 10) ∧
    ∃ line ∈ splitChar '\n' ("1. 안녕".toList),
      keepTitleLine line = true ∧ ("안녕".toList) = stripNumeral (strip line) :=
  ⟨by decide, (thumbnail_parse_amended ("1. 안녕".toList) 10).2.1 _ (by decide)⟩

/-! ## C3: TTS text chunking (corrected) -/

lemma splitDotSpace_no_dot : ∀ (l : Str), '.' ∉ l → splitDotSpace l = [l] := by
  intro l
  induction l with
  | nil => intro _; rfl
  | cons c rest ih =>
    intro h
    have hc : c ≠ '.' := fun e => h (by simp [e])
    have hr : '.' ∉ rest := fun m => h (List.mem_cons_of_mem _ m)
    rw [splitDotSpace.eq_def]
    split
    · simp_all
    · rename_i rest2 heq
      rw [List.cons_eq_cons] at heq
      exact absurd heq.1 hc
    · rename_i c2 rest2 hno hne
      rw [List.cons_eq_cons] at hne
      obtain ⟨h1, h2⟩ := hne
      subst h1
      subst h2
      rw [ih hr]

lemma dropWhile_no (p : Char → Bool) (l : Str) (h : ∀ c ∈ l, p c = false) :
    l.dropWhile p = l := by
  cases l with
  | nil => rfl
  | cons c rest => simp [List.dropWhile_cons, h c (by simp)]

/-- Stripping a string without whitespace is the identity. -/
lemma strip_no_space (l : Str) (h : ∀ c ∈ l, isPySpace c = false) :
    strip l = l := by
  unfold strip dropTrailing
  rw [dropWhile_no _ _ (fun c hc => h c (List.mem_reverse.mp hc)), List.reverse_reverse,
    dropWhile_no _ _ h]

lemma renderGroup_nil : renderGroup [] = [] := rfl

lemma renderGroup_isEmpty (g : List Str) : (renderGroup g).isEmpty = g.isEmpty := by
  cases g with
  | nil => rfl
  | cons s t => simp [renderGroup]

/-- Content invariant of the chunking loop: the state is always a list
of rendered nonempty sentence groups plus a rendered current group,
and together the groups hold exactly the processed sentences. -/
lemma chunkFold_groups (maxLen : Nat) :
    ∀ (ss : List Str) (groups : List (List Str)) (gcur : List Str),
      (∀ g ∈ groups, g ≠ []) →
      ∃ (groups2 : List (List Str)) (gcur2 : List Str),
        (∀ g ∈ groups2, g ≠ []) ∧
        groups2.flatten ++ gcur2 = groups.flatten ++ gcur ++ ss ∧
        ss.foldl (chunkStep maxLen)
            (groups.map (fun g => strip (renderGroup g)), renderGroup gcur) =
          (groups2.map (fun g => strip (renderGroup g)), renderGroup gcur2) := by
  intro ss
  induction ss with
  | nil =>
    intro groups gcur hg
    exact ⟨groups, gcur, hg, by simp, rfl⟩
  | cons s ss ih =>
    intro groups gcur hg
    simp only [List.foldl_cons]
    by_cases hc : (renderGroup gcur).length + s.length < maxLen
    · have hstep : chunkStep maxLen
          (groups.map (fun g => strip (renderGroup g)), renderGroup gcur) s =
          (groups.map (fun g => strip (renderGroup g)), renderGroup (gcur ++ [s])) := by
        unfold chunkStep
        rw [if_pos hc]
        simp [renderGroup, List.append_assoc]
      rw [hstep]
      rcases ih groups (gcur ++ [s]) hg with ⟨g2, c2, h1, h2, h3⟩
      refine ⟨g2, c2, h1, ?_, h3⟩
      rw [h2]
      simp [List.append_assoc]
    · by_cases hemp : gcur = []
      · subst hemp
        have hstep : chunkStep maxLen
            (groups.map (fun g => strip (renderGroup g)), renderGroup []) s =
            (groups.map (fun g => strip (renderGroup g)), renderGroup [s]) := by
          unfold chunkStep
          rw [if_neg hc]
          simp [renderGroup]
        rw [hstep]
        rcases ih groups [s] hg with ⟨g2, c2, h1, h2, h3⟩
        refine ⟨g2, c2, h1, ?_, h3⟩
        rw [h2]
        simp
      · have hne : (renderGroup gcur).isEmpty = false := by
          rw [renderGroup_isEmpty]
          simpa [List.isEmpty_iff] using hemp
        have hstep : chunkStep maxLen
            (groups.map (fun g => strip (renderGroup g)), renderGroup gcur) s =
            ((groups ++ [gcur]).map (fun g => strip (renderGroup g)),
              renderGroup [s]) := by
          unfold chunkStep
          rw [if_neg hc]
          rw [if_neg (show ¬ ((groups.map (fun g => strip (renderGroup g)),
            renderGroup gcur).2.isEmpty = true) from by simp [hne])]
          simp [renderGroup]
        rw [hstep]
        have hg2 : ∀ g ∈ groups ++ [gcur], g ≠ [] := by
          intro g hgm
          rcases List.mem_append.mp hgm with hgm | hgm
          · exact hg g hgm
          · simp at hgm
            subst hgm
            exact hemp
        rcases ih (groups ++ [gcur]) [s] hg2 with ⟨g2, c2, h1, h2, h3⟩
        refine ⟨g2, c2, h1, ?_, h3⟩
        rw [h2]
        simp [List.append_assoc]

/-- Length invariant of the chunking loop, under the hypothesis that
every remaining sentence fits a chunk: emitted chunks stay within
maxLen and the current chunk is empty or one trailing space above it. -/
lemma chunkFold_bound (maxLen : Nat) :
    ∀ (ss : List Str) (st : List Str × Str),
      (∀ s ∈ ss, s.length + 1 ≤ maxLen) →
      (∀ ch ∈ st.1, ch.length ≤ maxLen) →
      (st.2 = [] ∨ ∃ d, st.2 = d ++ [' '] ∧ d.length ≤ maxLen) →
      (∀ ch ∈ (ss.foldl (chunkStep maxLen) st).1, ch.length ≤ maxLen) ∧
      ((ss.foldl (chunkStep maxLen) st).2 = [] ∨
        ∃ d, (ss.foldl (chunkStep maxLen) st).2 = d ++ [' '] ∧ d.length ≤ maxLen) := by
  intro ss
  induction ss with
  | nil =>
    intro st hs h1 h2
    exact ⟨h1, h2⟩
  | cons s ss ih =>
    intro st hs h1 h2
    have hslen : s.length + 1 ≤ maxLen := hs s (by simp)
    have hrest : ∀ x ∈ ss, x.length + 1 ≤ maxLen := fun x hx => hs x (by simp [hx])
    simp only [List.foldl_cons]
    have hinv : (∀ ch ∈ (chunkStep maxLen st s).1, ch.length ≤ maxLen) ∧
        ((chunkStep maxLen st s).2 = [] ∨
          ∃ d, (chunkStep maxLen st s).2 = d ++ [' '] ∧ d.length ≤ maxLen) := by
      unfold chunkStep
      split_ifs with hc he
      · refine ⟨h1, Or.inr ⟨st.2 ++ s ++ ['.'], by simp, ?_⟩⟩
        simp only [List.length_append, List.length_cons, List.length_nil]
        omega
      · refine ⟨h1, Or.inr ⟨s ++ ['.'], by simp, ?_⟩⟩
        simp only [List.length_append, List.length_cons, List.length_nil]
        omega
      · constructor
        · intro ch hch
          rcases List.mem_append.mp hch with hch | hch
          · exact h1 ch hch
          · simp only [List.mem_singleton] at hch
            subst hch
            rcases h2 with h2 | ⟨d, hd, hdl⟩
            · rw [h2] at he
              exact absurd rfl he
            · rw [hd, strip_append_space d ' ' (by decide)]
              exact le_trans (strip_length_le d) hdl
        · refine Or.inr ⟨s ++ ['.'], by simp, ?_⟩
          simp only [List.length_append, List.length_cons, List.length_nil]
          omega
    exact ih _ hrest hinv.1 hinv.2

/-- C3 amended: every chunk is within max_length provided every
sentence (maximal segment between ". " separators of the
newline-normalized text) leaves room for its reattached period; and
the chunks partition the sentence sequence in order — the content is
recovered up to the reinserted ". " separators and the whitespace
stripped at chunk boundaries.  Without the sentence-length proviso a
single long sentence yields an oversized chunk (see the
counterexample). -/
theorem split_text_for_tts_amended (text : Str) (maxLen : Nat) :
    ((∀ s ∈ sentencesOf text, s.length + 1 ≤ maxLen) →
      ∀ ch ∈ split_text_for_tts text maxLen, ch.length ≤ maxLen) ∧
    (∃ groups : List (List Str),
      (∀ g ∈ groups, g ≠ []) ∧
      groups.flatten = sentencesOf text ∧
      split_text_for_tts text maxLen = groups.map (fun g => strip (renderGroup g))) := by
  constructor
  · intro hs ch hch
    have hb := chunkFold_bound maxLen (sentencesOf text) ([], []) hs
      (by simp) (Or.inl rfl)
    unfold split_text_for_tts finishChunks at hch
    set p := (sentencesOf text).foldl (chunkStep maxLen) ([], []) with hp
    by_cases he : p.2.isEmpty
    · rw [if_pos he] at hch
      exact hb.1 ch hch
    · rw [if_neg (by simp [he])] at hch
      rcases List.mem_append.mp hch with hch | hch
      · exact hb.1 ch hch
      · simp only [List.mem_singleton] at hch
        subst hch
        rcases hb.2 with h2 | ⟨d, hd, hdl⟩
        · rw [show p.2 = [] from h2] at he
          exact absurd rfl he
        · rw [show p.2 = d ++ [' '] from hd, strip_append_space d ' ' (by decide)]
          exact le_trans (strip_length_le d) hdl
  · rcases chunkFold_groups maxLen (sentencesOf text) [] [] (by simp)
      with ⟨g2, c2, h1, h2, h3⟩
    simp only [List.map_nil, renderGroup_nil] at h3
    simp only [List.flatten_nil, List.nil_append] at h2
    unfold split_text_for_tts finishChunks
    rw [h3]
    by_cases hc2 : c2 = []
    · subst hc2
      refine ⟨g2, h1, by simpa using h2, ?_⟩
      simp [renderGroup_nil]
    · refine ⟨g2 ++ [c2], ?_, ?_, ?_⟩
      · intro g hgm
        rcases List.mem_append.mp hgm with hgm | hgm
        · exact h1 g hgm
        · simp at hgm
          subst hgm
          exact hc2
      · rw [List.flatten_append]
        simpa using h2
      · rw [if_neg]
        · simp [List.map_append]
        · rw [renderGroup_isEmpty]
          simpa [List.isEmpty_iff] using hc2

/-- A sentence too long for the limit starts its own chunk. -/
lemma chunkStep_nil_big (maxLen : Nat) (s : Str) (h : ¬(s.length < maxLen)) :
    chunkStep maxLen ([], []) s = ([], s ++ ['.', ' ']) := by
  unfold chunkStep
  rw [if_neg (show ¬((([] : List Str), ([] : Str)).2.length + s.length < maxLen)
    from by simpa using h)]
  rfl

lemma isEmpty_append_cons (l : Str) (c : Char) (m : Str) :
    (l ++ c :: m).isEmpty = false := by
  cases l <;> rfl

/-- Flushing a non-empty current chunk appends its stripped form. -/
lemma finishChunks_ne (chs : List Str) (c : Str) (h : c.isEmpty = false) :
    finishChunks (chs, c) = chs ++ [strip c] := by
  unfold finishChunks
  simp [h]

/-- Refutation of C3 as stated: a 12,000-character input with no
sentence boundary anywhere (hence none near position 5,000) is
returned as a single chunk of 12,001 characters, far above the
5,000-character limit. -/
theorem split_text_for_tts_counterexample :
    longText = List.replicate 12000 'a' ∧
    split_text_for_tts longText 5000 = [longText ++ ['.']] ∧
    (longText ++ ['.']).length = 12001 ∧
    ¬((longText ++ ['.']).length ≤ 5000) := by
  have hLlen : longText.length = 12000 := by
    rw [show longText = List.replicate 12000 'a' from rfl, List.length_replicate]
  have hsent : sentencesOf longText = [longText] := by
    unfold sentencesOf
    rw [show longText.map blankNewline = longText from by
      rw [show longText = List.replicate 12000 'a' from rfl, List.map_replicate,
        show blankNewline 'a' = 'a' from by decide]]
    refine splitDotSpace_no_dot _ ?_
    intro hmem
    rw [show longText = List.replicate 12000 'a' from rfl] at hmem
    exact absurd (List.eq_of_mem_replicate hmem) (by decide)
  have hlen : (longText ++ ['.']).length = 12001 := by
    rw [List.length_append, hLlen]
    norm_num
  refine ⟨rfl, ?_, hlen, by rw [hlen]; norm_num⟩
  have hstep : chunkStep 5000 ([], []) longText = ([], longText ++ ['.', ' ']) :=
    chunkStep_nil_big 5000 longText (by rw [hLlen]; omega)
  unfold split_text_for_tts
  rw [hsent, List.foldl_cons, List.foldl_nil, hstep,
    finishChunks_ne _ _ (isEmpty_append_cons longText '.' [' '])]
  have hsplit : longText ++ ['.', ' '] = (longText ++ ['.']) ++ [' '] := by
    rw [List.append_assoc]
    rfl
  rw [hsplit, strip_append_space _ ' ' (by decide), strip_no_space, List.nil_append]
  intro c hc
  rcases List.mem_append.mp hc with hc | hc
  · rw [show longText = List.replicate 12000 'a' from rfl] at hc
    rw [List.eq_of_mem_replicate hc]
    decide
  · rw [List.mem_singleton] at hc
    subst hc
    decide

/-- Witness for C3 amended: a three-sentence input whose sentences all
fit, applied at the first produced chunk. -/
theorem split_text_for_tts_amended_witness :
    ("가나다.".toList ∈ split_text_for_tts ("가나다. 라마바. 사아자".toList) 8) ∧
    ("가나다.".toList).length ≤ 8 :=
  ⟨by decide,
   (split_text_for_tts_amended ("가나다. 라마바. 사아자".toList) 8).1
     (by decide) _ (by decide)⟩

/-! ## C6 and C7: the publish request body -/

lemma buildUploadBody_snippet (t d : Str) (tg : List Str) (cid : Str)
    (ps : String) (pa : Option String) :
    (buildUploadBody t d tg cid ps pa).title = t.take 100 ∧
    (buildUploadBody t d tg cid ps pa).description = d.take 5000 := by
  unfold buildUploadBody
  cases pa with
  | none => exact ⟨rfl, rfl⟩
  | some x =>
    dsimp only
    by_cases h : ps = "private"
    · rw [if_pos h]
      exact ⟨rfl, rfl⟩
    · rw [if_neg h]
      exact ⟨rfl, rfl⟩

/-- C6: every publish request body carries the title truncated to 100
characters and the description truncated to 5000; a 150-character
title is sent as exactly its first 100 characters and a 6000-character
description as exactly its first 5000, silently
(youtube_uploader.py lines 99-110). -/
theorem publish_truncation (title description : Str) (tags : List Str)
    (categoryId : Str) (privacyStatus : String) (publishAt : Option String) :
    (buildUploadBody title description tags categoryId privacyStatus publishAt).title =
      title.take 100 ∧
    (buildUploadBody title description tags categoryId privacyStatus publishAt).description =
      description.take 5000 ∧
    (buildUploadBody title description tags categoryId privacyStatus publishAt).title.length ≤ 100 ∧
    (buildUploadBody title description tags categoryId privacyStatus publishAt).description.length ≤ 5000 ∧
    (buildUploadBody (List.replicate 150 'T') (List.replicate 6000 'D')
        [] [] "public" none).title = List.replicate 100 'T' ∧
    (buildUploadBody (List.replicate 150 'T') (List.replicate 6000 'D')
        [] [] "public" none).description = List.replicate 5000 'D' ∧
    (List.replicate 100 'T' : Str).length = 100 ∧
    (List.replicate 5000 'D' : Str).length = 5000 := by
  refine ⟨(buildUploadBody_snippet _ _ _ _ _ _).1,
    (buildUploadBody_snippet _ _ _ _ _ _).2, ?_, ?_, ?_, ?_,
    List.length_replicate _ _, List.length_replicate _ _⟩
  · rw [(buildUploadBody_snippet _ _ _ _ _ _).1]
    exact List.length_take_le _ _
  · rw [(buildUploadBody_snippet _ _ _ _ _ _).2]
    exact List.length_take_le _ _
  · rw [(buildUploadBody_snippet _ _ _ _ _ _).1, List.take_replicate]
    norm_num
  · rw [(buildUploadBody_snippet _ _ _ _ _ _).2, List.take_replicate]
    norm_num

/-- C7: a scheduled publish time enters the request body only when the
privacy status is private; with any other privacy status the field is
silently dropped (youtube_uploader.py lines 112-115). -/
theorem publish_at_only_private (title description : Str) (tags : List Str)
    (categoryId : Str) (privacyStatus : String) (t : String) :
    (privacyStatus ≠ "private" →
      ∀ pa : Option String,
        (buildUploadBody title description tags categoryId privacyStatus pa).publishAt =
          none) ∧
    (privacyStatus = "private" →
      (buildUploadBody title description tags categoryId privacyStatus (some t)).publishAt =
        some (t ++ "Z")) ∧
    (∀ pa : Option String,
      (buildUploadBody title description tags categoryId privacyStatus pa).publishAt ≠ none →
      privacyStatus = "private") := by
  refine ⟨?_, ?_, ?_⟩
  · intro hne pa
    unfold buildUploadBody
    cases pa with
    | none => rfl
    | some x =>
      dsimp only
      rw [if_neg hne]
  · intro he
    unfold buildUploadBody
    dsimp only
    rw [if_pos he]
  · intro pa hne
    by_contra hnp
    refine hne ?_
    unfold buildUploadBody
    cases pa with
    | none => rfl
    | some x =>
      dsimp only
      rw [if_neg hnp]

/-- Witness for C7: scheduling with public privacy drops the field,
scheduling with private privacy keeps it. -/
theorem publish_at_only_private_witness :
    (buildUploadBody [] [] [] [] "public" (some "2026-01-01T18:00:00")).publishAt =
      none ∧
    (buildUploadBody [] [] [] [] "private" (some "2026-01-01T18:00:00")).publishAt =
      some ("2026-01-01T18:00:00" ++ "Z") :=
  ⟨(publish_at_only_private [] [] [] [] "public" "2026-01-01T18:00:00").1
     (by decide) _,
   (publish_at_only_private [] [] [] [] "private" "2026-01-01T18:00:00").2.1 rfl⟩

/-! ## C10: the no-credentials mock upload path -/

/-- C10: when the client library is unavailable or authentication
produced no client, upload_video answers with the mock record: status
success (mock), never error, a MOCK_-prefixed video id, and the
caller's title forwarded with no truncation
(youtube_uploader.py lines 94-95 and 177-193). -/
theorem upload_mock_path (env : UploadEnv) (send : UploadRequestBody → UploadOutcome)
    (title description : Str) (tags : List Str) (categoryId : Str)
    (privacyStatus : String) (publishAt : Option String)
    (h : env.apiAvailable = false ∨ env.hasClient = false) :
    upload_video env send title description tags categoryId privacyStatus publishAt =
      upload_mock env title ∧
    (upload_video env send title description tags categoryId privacyStatus publishAt).status =
      "success (mock)" ∧
    (upload_video env send title description tags categoryId privacyStatus publishAt).status ≠
      "error" ∧
    (upload_video env send title description tags categoryId privacyStatus publishAt).video_id =
      some ("MOCK_" ++ env.now) ∧
    (upload_video env send title description tags categoryId privacyStatus publishAt).title =
      some title := by
  have hcond : (!env.apiAvailable || !env.hasClient) = true := by
    rcases h with h | h <;> rw [h] <;> simp
  have hmock : upload_video env send title description tags categoryId privacyStatus publishAt =
      upload_mock env title := by
    unfold upload_video
    rw [if_pos hcond]
  refine ⟨hmock, ?_, ?_, ?_, ?_⟩ <;> rw [hmock]
  · rfl
  · show ("success (mock)" : String) ≠ "error"
    decide
  · rfl
  · rfl

/-- Witness for C10: library unavailable, a 150-character title comes
back unmodified with the mock status. -/
theorem upload_mock_path_witness :
    (upload_video ⟨false, true, "20261012"⟩ (fun _ => UploadOutcome.ok "vid")
        (List.replicate 150 'T') [] [] [] "public" none).status = "success (mock)" ∧
    (upload_video ⟨false, true, "20261012"⟩ (fun _ => UploadOutcome.ok "vid")
        (List.replicate 150 'T') [] [] [] "public" none).title =
      some (List.replicate 150 'T') := by
  have h := upload_mock_path ⟨false, true, "20261012"⟩ (fun _ => UploadOutcome.ok "vid")
    (List.replicate 150 'T') [] [] [] "public" none (Or.inl rfl)
  exact ⟨h.2.1, h.2.2.2.2⟩

/-! ## C4: per-article failure isolation in the orchestrator -/

/-- Each run either completes with no stage error or fails carrying
exactly the first stage error. -/
lemma process_vs_stageError (st : Stages) (autoUpload : Bool) (a : Article) :
    (stageError st autoUpload a = none ∧
      (process_single_article st autoUpload a).status = "completed") ∨
    (∃ e, stageError st autoUpload a = some e ∧
      (process_single_article st autoUpload a).status = "failed" ∧
      (process_single_article st autoUpload a).error = some e) := by
  unfold process_single_article stageError
  cases st.genScript a with
  | error e =>
    try dsimp only
    exact Or.inr ⟨e, rfl, rfl, rfl⟩
  | ok sd =>
    try dsimp only
    cases st.genThumbs a with
    | error e =>
      try dsimp only
      exact Or.inr ⟨e, rfl, rfl, rfl⟩
    | ok th =>
      try dsimp only
      cases st.genMeta a sd.script with
      | error e =>
        try dsimp only
        exact Or.inr ⟨e, rfl, rfl, rfl⟩
      | ok md =>
        try dsimp only
        cases st.genAudio sd.script with
        | error e =>
          try dsimp only
          exact Or.inr ⟨e, rfl, rfl, rfl⟩
        | ok audio =>
          try dsimp only
          cases st.editVideo audio sd.script with
          | error e =>
            try dsimp only
            exact Or.inr ⟨e, rfl, rfl, rfl⟩
          | ok video =>
            try dsimp only
            cases autoUpload with
            | false =>
              try dsimp only
              exact Or.inl ⟨rfl, rfl⟩
            | true =>
              try dsimp only
              cases st.upload video (md.title.getD a.title)
                  (md.description.getD []) (md.tags.getD []) with
              | error e =>
                try dsimp only
                exact Or.inr ⟨e, rfl, rfl, rfl⟩
              | ok ur =>
                try dsimp only
                exact Or.inl ⟨rfl, rfl⟩

/-- C4: the per-article loop processes every selected article; a run
whose stages raise is marked failed with the captured error text, and
runs with no stage error complete — one article's failure never aborts
the batch (main_workflow.py lines 80-89 and 135-203). -/
theorem orchestrator_failure_isolation (st : Stages) (autoUpload : Bool)
    (arts : List Article) :
    (runBatch st autoUpload arts).length = arts.length ∧
    (∀ i : Nat, (runBatch st autoUpload arts)[i]? =
      (arts[i]?).map (process_single_article st autoUpload)) ∧
    (∀ a e, stageError st autoUpload a = some e →
      (process_single_article st autoUpload a).status = "failed" ∧
      (process_single_article st autoUpload a).error = some e) ∧
    (∀ a, stageError st autoUpload a = none →
      (process_single_article st autoUpload a).status = "completed") := by
  refine ⟨by simp [runBatch], by intro i; simp [runBatch], ?_, ?_⟩
  · intro a e hsome
    rcases process_vs_stageError st autoUpload a with ⟨hn, _⟩ | ⟨e2, hs2, hst, herr⟩
    · rw [hn] at hsome
      cases hsome
    · rw [hs2] at hsome
      injection hsome with he
      subst he
      exact ⟨hst, herr⟩
  · intro a hnone
    rcases process_vs_stageError st autoUpload a with ⟨_, hc⟩ | ⟨e2, hs2, _, _⟩
    · exact hc
    · rw [hs2] at hnone
      cases hnone

/-- Witness for C4: a batch whose script stage raises yields a failed
run carrying the error text. -/
theorem orchestrator_failure_isolation_witness :
    (process_single_article stagesFail false artSamsung).status = "failed" ∧
    (process_single_article stagesFail false artSamsung).error =
      some "script backend exploded" :=
  (orchestrator_failure_isolation stagesFail false [artSamsung]).2.2.1 artSamsung
    "script backend exploded" rfl

end NewsAuto
